import Mathlib

/-!
Shallow embedding of the Wisdom team-battle client view layer:
the `TeamBattleGame` page (src/client/src/pages/TeamBattleGame.tsx) and the
`TeamDisplay` roster component.  JavaScript objects keyed by strings are
modelled as insertion-ordered association lists; missing or undefined JSON
fields are modelled with `Option`; JavaScript truthiness on strings and
numbers is made explicit at each use site.  Inbound socket messages are an
inductive `InEvent`; a message whose field access would throw mid-handler is
modelled by returning the state accumulated up to the throwing access, since
the surrounding try/catch only logs the error.
-/

/-- Phase enum of the client-local game state. -/
inductive Phase
  | waiting | ready | playing | question | results | finished
deriving DecidableEq, Repr

/-- Member entry of a team.  The joinedAt date is omitted: no embedded logic
reads it. -/
structure TeamMember where
  userId : Int
  username : String
  role : String
deriving DecidableEq, Repr

/-- Team record as cached by the client. -/
structure Team where
  id : String
  name : String
  captainId : Int
  gameSessionId : String
  members : List TeamMember
  score : Int
  correctAnswers : Int
  incorrectAnswers : Int
  status : String
deriving DecidableEq, Repr

/-- One answer option of a question. -/
structure Answer where
  id : String
  text : String
  isCorrect : Bool
deriving DecidableEq, Repr

/-- Question record pushed by the server. -/
structure Question where
  id : String
  text : String
  answers : List Answer
  category : String
  difficulty : String
  timeLimit : Option Int
deriving DecidableEq, Repr

/-- Client-local GameState projection. -/
structure GameState where
  phase : Phase
  currentQuestion : Option Question
  questionNumber : Option Int
  totalQuestions : Option Int
  timeRemaining : Option Int
  teams : Option (List Team)
  playerTeam : Option Team
  opposingTeam : Option Team
  finalScore : Option Int
  correct : Option Int
  incorrect : Option Int
deriving DecidableEq, Repr

/-- Entry of the per-answer suggestion lists.  The username field may be
undefined on a malformed event, hence `Option`. -/
structure SuggestionEntry where
  userId : Int
  username : Option String
deriving DecidableEq, Repr

/-- JavaScript object keyed by answer id, as an insertion-ordered
association list. -/
abbrev SuggestionsByAnswerId := List (String × List SuggestionEntry)

/-- All useState hooks of the TeamBattleGame component. -/
structure LocalState where
  gameState : GameState
  selectedAnswer : Option String
  hasSubmitted : Bool
  teamAnswer : Option String
  memberAnswers : List (String × Option String)
  connected : Bool
  suggestions : SuggestionsByAnswerId
  waitingForResults : Bool
  correctAnswerId : Option String
  showRoundFeedback : Bool
  lastRoundCorrect : Option Bool
deriving DecidableEq, Repr

/-- Initial game state: useState starts at phase waiting. -/
def initGameState : GameState :=
  { phase := .waiting, currentQuestion := none, questionNumber := none,
    totalQuestions := none, timeRemaining := none, teams := none,
    playerTeam := none, opposingTeam := none, finalScore := none,
    correct := none, incorrect := none }

/-- Initial local component state. -/
def initLocalState : LocalState :=
  { gameState := initGameState, selectedAnswer := none, hasSubmitted := false,
    teamAnswer := none, memberAnswers := [], connected := false,
    suggestions := [], waitingForResults := false, correctAnswerId := none,
    showRoundFeedback := false, lastRoundCorrect := none }

/-- Payload object data.correctAnswer (only its id field is read). -/
structure CorrectAnswerObj where
  id : Option String
deriving DecidableEq, Repr

/-- Payload object data.finalAnswer (only its answerId field is read). -/
structure FinalAnswerObj where
  answerId : Option String
deriving DecidableEq, Repr

/-- Entry of the data.teamResults array. -/
structure TeamResult where
  teamId : String
  correct : Bool
deriving DecidableEq, Repr

/-- Value of the data.teamResults field when it is not null or undefined.  A
truthy non-array value has no .find method, so the handler throws there. -/
inductive TeamResultsField
  | arr (rs : List TeamResult)
  | nonArrayTruthy
deriving DecidableEq, Repr

/-- Entry of the data.leaderboard array. -/
structure LeaderboardEntry where
  teamId : String
  score : Int
deriving DecidableEq, Repr

/-- Payload object data.yourTeam of the finished events. -/
structure YourTeamPayload where
  score : Option Int
  correctAnswers : Option Int
  incorrectAnswers : Option Int
deriving DecidableEq, Repr

/-- Fields of data.gameState spread into the previous state by
game_state_update; a `some` field is present and overwrites. -/
structure GameStatePatch where
  phase : Option Phase := none
  currentQuestion : Option Question := none
  questionNumber : Option Int := none
  totalQuestions : Option Int := none
  timeRemaining : Option Int := none
  teams : Option (List Team) := none
  finalScore : Option Int := none
  correct : Option Int := none
  incorrect : Option Int := none
deriving DecidableEq, Repr

/-- Inbound socket messages after JSON.parse, plus `malformedJson` for a
payload on which JSON.parse itself throws. -/
inductive InEvent
  | malformedJson
  | connectionEstablished
  | authenticated
  | gameStateUpdate (patch : GameStatePatch) (playerTeam opposingTeam : Option Team)
  | teamBattleStarted
  | teamBattleQuestion (question : Option Question) (questionNumber totalQuestions timeLimit : Option Int)
  | teamAnswerSubmitted (userId : Option Int) (username : Option String) (answerId : Option String)
  | teamOptionSelected (teamId answerId : Option String) (userId : Option Int) (username : Option String)
  | teamAnswerFinalized (finalAnswer : Option FinalAnswerObj)
  | teamBattleQuestionResults (correctAnswer : Option CorrectAnswerObj)
      (teamResults : Option TeamResultsField) (leaderboard : Option (List LeaderboardEntry))
  | teamBattleRoundComplete
  | teamBattleFinished (finalScores : Option (List Team)) (yourTeam : Option YourTeamPayload)
  | teamBattleEnded (finalScores : Option (List Team)) (yourTeam : Option YourTeamPayload)
  | teamsUpdated (teams : Option (List Team))
  | teamUpdate (teams : Option (List Team))
  | errorEvent (message : String)
  | unknownType
deriving DecidableEq, Repr

/-- Outbound socket messages emitted by the component. -/
inductive OutEvent
  | getGameState (gameSessionId : String) (userId : Int)
  | teamOptionSelectedOut (teamId questionId answerId : String) (userId : Int) (username : String)
  | finalizeTeamAnswer (teamId questionId answerId : String)
deriving DecidableEq, Repr

/-- JavaScript truthiness test !x on an optional string field: undefined and
the empty string are falsy. -/
def isFalsyStr : Option String → Bool
  | none => true
  | some s => s == ""

/-- JavaScript truthiness test !x on an optional numeric field: undefined and
zero are falsy. -/
def isFalsyInt : Option Int → Bool
  | none => true
  | some n => n == 0

/-- Read next[k] with the empty-list default used by the handler. -/
def objGetList (m : SuggestionsByAnswerId) (k : String) : List SuggestionEntry :=
  match m.find? (fun p => p.1 == k) with
  | some p => p.2
  | none => []

/-- Write m[k] = v on a JavaScript object: overwrite in place when the key
exists, otherwise append in insertion order. -/
def objSet {α : Type} (m : List (String × α)) (k : String) (v : α) : List (String × α) :=
  if m.any (fun p => p.1 == k) then m.map (fun p => if p.1 == k then (k, v) else p)
  else m ++ [(k, v)]

/-- Remove the previous suggestion of user u0 from every answer list and drop
answers whose list becomes empty, as the forEach loop of the handler does. -/
def stripUser (u0 : Int) (m : SuggestionsByAnswerId) : SuggestionsByAnswerId :=
  (m.map (fun p => (p.1, p.2.filter (fun e => e.userId != u0)))).filter
    (fun p => !p.2.isEmpty)

/-- Full suggestion update of the team_option_selected handler: strip the
user from all answers, then append the user to the list of answer a. -/
def suggestionsAfterSelect (prev : SuggestionsByAnswerId) (a : String) (u0 : Int)
    (un : Option String) : SuggestionsByAnswerId :=
  let next := stripUser u0 prev
  objSet next a (objGetList next a ++ [{ userId := u0, username := un }])

/-- Embedding of data.correctAnswer?.id or null: a missing object, a missing
id and a falsy (empty) id all give null. -/
def jsCorrectId (ca : Option CorrectAnswerObj) : Option String :=
  match ca with
  | some c =>
    match c.id with
    | some i => if i == "" then none else some i
    | none => none
  | none => none

/-- Later-wins choice a or b on object-valued fields, as the spread and the
logical-or fallbacks use it. -/
def overr {α : Type} : Option α → Option α → Option α
  | some v, _ => some v
  | none, prev => prev

/-- Coalescing a ?? b ?? 0 on numeric fields of the finished events. -/
def coalesceInt (a b : Option Int) : Int :=
  match a with
  | some v => v
  | none => b.getD 0

/-- JavaScript computed object key: an undefined username becomes the string
key undefined. -/
def jsKeyOf : Option String → String
  | some k => k
  | none => "undefined"

/-- Merge of the game_state_update event: spread data.gameState over the
previous state, then overwrite the team references unconditionally. -/
def applyGameStateUpdate (patch : GameStatePatch) (playerTeam opposingTeam : Option Team)
    (gs : GameState) : GameState :=
  { phase := patch.phase.getD gs.phase
    currentQuestion := overr patch.currentQuestion gs.currentQuestion
    questionNumber := overr patch.questionNumber gs.questionNumber
    totalQuestions := overr patch.totalQuestions gs.totalQuestions
    timeRemaining := overr patch.timeRemaining gs.timeRemaining
    teams := overr patch.teams gs.teams
    playerTeam := playerTeam
    opposingTeam := opposingTeam
    finalScore := overr patch.finalScore gs.finalScore
    correct := overr patch.correct gs.correct
    incorrect := overr patch.incorrect gs.incorrect }

/-- Resolution of player and opposing team by membership lookup, as done by
updateTeamsData for the teams_updated and team_update events. -/
def updateTeamsData (selfId : Int) (teams : List Team) (s : LocalState) : LocalState :=
  let playerTeam := teams.find? (fun t => t.members.any (fun m => m.userId == selfId))
  let opposingTeam := teams.find? (fun t =>
    match playerTeam with
    | some pt => t.id != pt.id
    | none => true)
  { s with gameState := { s.gameState with
      teams := some teams, playerTeam := playerTeam, opposingTeam := opposingTeam } }

/-- Effect of a team_battle_question event: enter the question phase, load
the question data, and clear all per-round local state.  The timer follows
data.timeLimit or 15, where a zero limit is falsy. -/
def handleQuestionEvent (q : Option Question) (qn tq tl : Option Int)
    (s : LocalState) : LocalState :=
  { s with
    gameState := { s.gameState with
      phase := .question
      currentQuestion := q
      questionNumber := qn
      totalQuestions := tq
      timeRemaining := some (match tl with | some t => if t == 0 then 15 else t | none => 15) }
    selectedAnswer := none
    hasSubmitted := false
    teamAnswer := none
    memberAnswers := []
    suggestions := []
    waitingForResults := false
    correctAnswerId := none
    lastRoundCorrect := none }

/-- Effect of a team_battle_question_results event.  The first two state
updates (clearing the waiting overlay and storing the revealed id) are issued
before data.teamResults is accessed; when that field is a truthy non-array
its .find access throws, the outer catch logs it, and only those two updates
survive, which the early return of the nonArrayTruthy branch models. -/
def handleResultsEvent (selfId : Int) (ca : Option CorrectAnswerObj)
    (tr : Option TeamResultsField) (lb : Option (List LeaderboardEntry))
    (s : LocalState) : LocalState :=
  let s1 := { s with waitingForResults := false, correctAnswerId := jsCorrectId ca }
  match tr with
  | some .nonArrayTruthy => s1
  | _ =>
    let fallbackId : Option String :=
      match s.gameState.teams with
      | some ts => (ts.find? (fun t => t.members.any (fun m => m.userId == selfId))).map
          (fun t => t.id)
      | none => none
    let resolvedPlayerTeamId : Option String :=
      match s.gameState.playerTeam with
      | some pt => if pt.id == "" then fallbackId else some pt.id
      | none => fallbackId
    let playerTeamResult : Option TeamResult :=
      match tr, resolvedPlayerTeamId with
      | some (.arr rs), some pid => rs.find? (fun r => r.teamId == pid)
      | _, _ => none
    let roundCorrect := match playerTeamResult with | some r => r.correct | none => false
    let s2 := { s1 with lastRoundCorrect := some roundCorrect }
    let prev := s2.gameState
    let updatedTeams : Option (List Team) :=
      match prev.teams, lb with
      | some ts, some entries =>
        some (ts.map (fun t =>
          match entries.find? (fun en => en.teamId == t.id) with
          | some en => { t with score := en.score }
          | none => t))
      | _, _ => prev.teams
    let playerTeam :=
      match updatedTeams with
      | some ts => ts.find? (fun t => t.members.any (fun m => m.userId == selfId))
      | none => none
    let opposingTeam :=
      match updatedTeams with
      | some ts => ts.find? (fun t =>
          match playerTeam with
          | some pt => t.id != pt.id
          | none => true)
      | none => none
    { s2 with gameState := { prev with
        teams := updatedTeams
        playerTeam := overr playerTeam prev.playerTeam
        opposingTeam := overr opposingTeam prev.opposingTeam } }

/-- Effect of the team_battle_finished and team_battle_ended events. -/
def finishGame (finalScores : Option (List Team)) (yourTeam : Option YourTeamPayload)
    (s : LocalState) : LocalState :=
  let gs := s.gameState
  { s with
    gameState := { gs with
      phase := .finished
      teams := finalScores
      finalScore := some (coalesceInt (yourTeam.bind (fun yt => yt.score)) gs.finalScore)
      correct := some (coalesceInt (yourTeam.bind (fun yt => yt.correctAnswers)) gs.correct)
      incorrect := some (coalesceInt (yourTeam.bind (fun yt => yt.incorrectAnswers)) gs.incorrect) }
    showRoundFeedback := false }

/-- Effect of a team_answer_submitted event: record the answer of a
teammate, keyed by username, ignoring echoes of the own answer. -/
def handleSubmittedEvent (selfId : Int) (uid : Option Int) (uname aid : Option String)
    (s : LocalState) : LocalState :=
  if uid == some selfId then s
  else { s with memberAnswers := objSet s.memberAnswers (jsKeyOf uname) aid }

/-- Effect of a team_option_selected event: the falsy guard drops the event,
otherwise the suggestion map is rewritten.  The guard guarantees the ids are
present, so the final wildcard arm is unreachable. -/
def handleSelectEvent (tid aid : Option String) (uid : Option Int) (uname : Option String)
    (s : LocalState) : LocalState :=
  if isFalsyStr tid || isFalsyStr aid || isFalsyInt uid then s
  else
    match aid, uid with
    | some a, some u => { s with suggestions := suggestionsAfterSelect s.suggestions a u uname }
    | _, _ => s

/-- Effect of a team_answer_finalized event: a missing finalAnswer object
throws on the answerId access before any state update, so the state is
returned unchanged. -/
def handleFinalizedEvent (fa : Option FinalAnswerObj) (s : LocalState) : LocalState :=
  match fa with
  | some f => { s with teamAnswer := f.answerId, hasSubmitted := true, waitingForResults := true }
  | none => s

/-- Effect of the teams_updated and team_update events, guarded on a truthy
teams field. -/
def handleTeamsEvent (selfId : Int) (teams : Option (List Team)) (s : LocalState) : LocalState :=
  match teams with
  | some ts => updateTeamsData selfId ts s
  | none => s

/-- Message handler handleMessage of TeamBattleGame, switching on the type
discriminator.  Events that only toast or log leave the state unchanged; a
payload on which an unguarded field access throws returns the state built up
to that access, since the surrounding try/catch only logs. -/
def handleMessage (selfId : Int) (s : LocalState) (e : InEvent) : LocalState :=
  match e with
  | .malformedJson => s
  | .connectionEstablished => { s with connected := true }
  | .authenticated => s
  | .gameStateUpdate patch pt ot =>
    { s with gameState := applyGameStateUpdate patch pt ot s.gameState }
  | .teamBattleStarted => { s with gameState := { s.gameState with phase := .playing } }
  | .teamBattleQuestion q qn tq tl => handleQuestionEvent q qn tq tl s
  | .teamAnswerSubmitted uid uname aid => handleSubmittedEvent selfId uid uname aid s
  | .teamOptionSelected tid aid uid uname => handleSelectEvent tid aid uid uname s
  | .teamAnswerFinalized fa => handleFinalizedEvent fa s
  | .teamBattleQuestionResults ca tr lb => handleResultsEvent selfId ca tr lb s
  | .teamBattleRoundComplete => s
  | .teamBattleFinished finalScores yourTeam => finishGame finalScores yourTeam s
  | .teamBattleEnded finalScores yourTeam => finishGame finalScores yourTeam s
  | .teamsUpdated teams => handleTeamsEvent selfId teams s
  | .teamUpdate teams => handleTeamsEvent selfId teams s
  | .errorEvent _ => s
  | .unknownType => s

/-- Render effect of the useEffect hook on lastRoundCorrect: when that value
changed to a non-null one, raise the feedback flag. -/
def feedbackEffect (sOld sNew : LocalState) : LocalState :=
  if sNew.lastRoundCorrect ≠ sOld.lastRoundCorrect ∧ sNew.lastRoundCorrect ≠ none
  then { sNew with showRoundFeedback := true }
  else sNew

/-- One processed inbound message followed by the render effect on
lastRoundCorrect. -/
def stepEvent (selfId : Int) (s : LocalState) (e : InEvent) : LocalState :=
  feedbackEffect s (handleMessage selfId s e)

/-- States reached by processing a list of inbound messages from the initial
component state. -/
def runEvents (selfId : Int) (es : List InEvent) : LocalState :=
  es.foldl (stepEvent selfId) initLocalState

/-- Captain check of the component: the player team reference carries the
captain id compared against the current user id. -/
def isTeamCaptain (selfId : Int) (s : LocalState) : Bool :=
  match s.gameState.playerTeam with
  | some t => t.captainId == selfId
  | none => false

/-- Captain submit handler: guarded on a current question, a player team and
the captain check; on success it emits finalize_team_answer and changes no
local state. -/
def handleCaptainSubmit (selfId : Int) (s : LocalState) (answerId : String) :
    LocalState × Option OutEvent :=
  match s.gameState.currentQuestion, s.gameState.playerTeam with
  | some q, some t =>
    if isTeamCaptain selfId s then (s, some (.finalizeTeamAnswer t.id q.id answerId))
    else (s, none)
  | _, _ => (s, none)

/-- Member select handler: emits the advisory team_option_selected event and
records the local highlight. -/
def handleMemberSelect (selfId : Int) (selfName : String) (s : LocalState)
    (answerId : String) : LocalState × Option OutEvent :=
  match s.gameState.currentQuestion, s.gameState.playerTeam with
  | some q, some t =>
    ({ s with selectedAnswer := some answerId },
     some (.teamOptionSelectedOut t.id q.id answerId selfId selfName))
  | _, _ => (s, none)

/-- Render condition of the round feedback overlay, as computed right before
the return of the component. -/
def showFeedbackModal (s : LocalState) : Bool :=
  s.showRoundFeedback && s.gameState.currentQuestion.isSome
    && s.correctAnswerId.isSome && s.lastRoundCorrect.isSome

/-- The onClose action of the feedback overlay. -/
def dismissFeedback (s : LocalState) : LocalState :=
  { s with showRoundFeedback := false, lastRoundCorrect := none, correctAnswerId := none }

/-- Team shape consumed by the TeamDisplay component. -/
structure TeamDisplayTeam where
  id : String
  name : String
  captainId : Int
  members : List TeamMember
  teamSide : Option String
deriving DecidableEq, Repr

/-- Props of TeamDisplay.  The optional onReady callback is modelled by
whether it was provided; the optional booleans collapse undefined to false,
matching their only (truthiness) uses. -/
structure TeamDisplayProps where
  team : TeamDisplayTeam
  currentUserId : Option Int
  onReady : Bool
  title : Option String
  isUserTeam : Bool
  isReady : Bool
deriving DecidableEq, Repr

/-- Observable output of rendering TeamDisplay: which optional elements are
present, and the member rows with their crown marker and role label. -/
structure TeamDisplayView where
  showsTitle : Bool
  teamName : String
  showsYourTeamTag : Bool
  showsReadyBadge : Bool
  showsReadyButton : Bool
  memberRows : List (String × Bool × String)
deriving DecidableEq, Repr

/-- Rendering function of TeamDisplay.  A falsy currentUserId (absent or
zero) disables the captain check; the ready button needs the callback, the
own-team flag and the captain check together. -/
def renderTeamDisplay (p : TeamDisplayProps) : TeamDisplayView :=
  let isCaptain :=
    match p.currentUserId with
    | some n => if n == 0 then false else p.team.captainId == n
    | none => false
  let canReady := p.onReady && p.isUserTeam && isCaptain
  { showsTitle := p.title.isSome
    teamName := p.team.name
    showsYourTeamTag := p.isUserTeam
    showsReadyBadge := p.isReady
    showsReadyButton := canReady
    memberRows := p.team.members.map (fun m =>
      (m.username, m.role == "captain",
       if m.role == "captain" then "Captain" else "Member")) }

/-- Boolean membership test: answer k currently lists user u among its
suggesting members. -/
def containsUser (u : Int) (k : String) (m : SuggestionsByAnswerId) : Bool :=
  m.any (fun p => p.1 == k && p.2.any (fun e => e.userId == u))

/-- Predicate that a suggestions map lists user u under at most one answer
id. -/
def AtMostOneUser (u : Int) (m : SuggestionsByAnswerId) : Prop :=
  ∀ k1 k2, containsUser u k1 m = true → containsUser u k2 m = true → k1 = k2

lemma atMostOne_nil (u : Int) : AtMostOneUser u [] := by
  intro k1 k2 h1 _
  simp [containsUser] at h1

lemma mem_stripUser {u0 : Int} {m : SuggestionsByAnswerId}
    {p : String × List SuggestionEntry} (hp : p ∈ stripUser u0 m) :
    ∃ q ∈ m, p.1 = q.1 ∧ ∀ e ∈ p.2, e ∈ q.2 ∧ e.userId ≠ u0 := by
  unfold stripUser at hp
  rw [List.mem_filter] at hp
  obtain ⟨hmem, _⟩ := hp
  rw [List.mem_map] at hmem
  obtain ⟨q, hq, rfl⟩ := hmem
  refine ⟨q, hq, rfl, ?_⟩
  intro e he
  rw [List.mem_filter] at he
  exact ⟨he.1, by simpa using he.2⟩

lemma mem_objGetList {m : SuggestionsByAnswerId} {k : String} {e : SuggestionEntry}
    (he : e ∈ objGetList m k) :
    ∃ p ∈ m, p.1 = k ∧ e ∈ p.2 := by
  unfold objGetList at he
  rcases hf : m.find? (fun p => p.1 == k) with _ | p
  · rw [hf] at he
    simp at he
  · rw [hf] at he
    exact ⟨p, List.mem_of_find?_eq_some hf, by simpa using List.find?_some hf, he⟩

lemma mem_objSet {α : Type} {m : List (String × α)} {k : String} {v : α}
    {p : String × α} (hp : p ∈ objSet m k v) :
    p = (k, v) ∨ (p ∈ m ∧ p.1 ≠ k) := by
  unfold objSet at hp
  split at hp
  next hany =>
    rw [List.mem_map] at hp
    obtain ⟨q, hq, hEq⟩ := hp
    by_cases hqk : (q.1 == k) = true
    · left
      rw [← hEq]
      simp [hqk]
    · right
      have hqe : (if q.1 == k then (k, v) else q) = q := by simp [hqk]
      rw [hqe] at hEq
      subst hEq
      exact ⟨hq, by simpa using hqk⟩
  next hany =>
    rw [List.mem_append] at hp
    rcases hp with hp | hp
    · right
      refine ⟨hp, fun hk => hany ?_⟩
      rw [List.any_eq_true]
      exact ⟨p, hp, by simp [hk]⟩
    · left
      simpa using hp

lemma containsUser_afterSelect {prev : SuggestionsByAnswerId} {a : String}
    {u0 : Int} {un : Option String} {u : Int} {k : String}
    (h : containsUser u k (suggestionsAfterSelect prev a u0 un) = true) :
    (u = u0 ∧ k = a) ∨ (u ≠ u0 ∧ containsUser u k prev = true) := by
  unfold containsUser at h
  rw [List.any_eq_true] at h
  obtain ⟨p, hpmem, hp⟩ := h
  rw [Bool.and_eq_true] at hp
  obtain ⟨hpk, hpany⟩ := hp
  rw [List.any_eq_true] at hpany
  obtain ⟨e, hemem, heu⟩ := hpany
  have hku : p.1 = k := by simpa using hpk
  have heq : e.userId = u := by simpa using heu
  unfold suggestionsAfterSelect at hpmem
  rcases mem_objSet hpmem with hcase | ⟨hpmem2, hpne⟩
  · have hka : k = a := by rw [← hku, hcase]
    rw [hcase] at hemem
    rcases List.mem_append.mp hemem with hold | hnew
    · obtain ⟨pr, hprmem, hpra, hepr⟩ := mem_objGetList hold
      obtain ⟨q, hq, hq1, hqall⟩ := mem_stripUser hprmem
      obtain ⟨heq2, hene⟩ := hqall e hepr
      right
      refine ⟨by rw [← heq]; exact hene, ?_⟩
      unfold containsUser
      rw [List.any_eq_true]
      refine ⟨q, hq, ?_⟩
      rw [Bool.and_eq_true]
      constructor
      · rw [← hq1, hpra, hka]
        simp
      · rw [List.any_eq_true]
        exact ⟨e, heq2, by simp [heq]⟩
    · left
      have : e = { userId := u0, username := un } := by simpa using hnew
      rw [this] at heq
      exact ⟨heq.symm, hka⟩
  · obtain ⟨q, hq, hq1, hqall⟩ := mem_stripUser hpmem2
    obtain ⟨heq2, hene⟩ := hqall e hemem
    right
    refine ⟨by rw [← heq]; exact hene, ?_⟩
    unfold containsUser
    rw [List.any_eq_true]
    refine ⟨q, hq, ?_⟩
    rw [Bool.and_eq_true]
    constructor
    · rw [← hq1, hku]
      simp
    · rw [List.any_eq_true]
      exact ⟨e, heq2, by simp [heq]⟩

lemma atMostOne_afterSelect {u : Int} {prev : SuggestionsByAnswerId} {a : String}
    {u0 : Int} {un : Option String} (H : AtMostOneUser u prev) :
    AtMostOneUser u (suggestionsAfterSelect prev a u0 un) := by
  intro k1 k2 h1 h2
  rcases containsUser_afterSelect h1 with ⟨hu, hk1⟩ | ⟨hu, hc1⟩ <;>
    rcases containsUser_afterSelect h2 with ⟨hu2, hk2⟩ | ⟨hu2, hc2⟩
  · rw [hk1, hk2]
  · exact absurd hu hu2
  · exact absurd hu2 hu
  · exact H k1 k2 hc1 hc2

lemma handleMessage_suggestions (selfId : Int) (s : LocalState) (e : InEvent) :
    (handleMessage selfId s e).suggestions = s.suggestions ∨
    (handleMessage selfId s e).suggestions = [] ∨
    ∃ a u0 un, (handleMessage selfId s e).suggestions =
      suggestionsAfterSelect s.suggestions a u0 un := by
  cases e with
  | malformedJson => left; rfl
  | connectionEstablished => left; rfl
  | authenticated => left; rfl
  | gameStateUpdate patch pt ot => left; rfl
  | teamBattleStarted => left; rfl
  | teamBattleQuestion q qn tq tl => right; left; rfl
  | teamAnswerSubmitted uid uname aid =>
    left
    show (handleSubmittedEvent selfId uid uname aid s).suggestions = s.suggestions
    unfold handleSubmittedEvent
    split <;> rfl
  | teamOptionSelected tid aid uid uname =>
    have harr : handleMessage selfId s (.teamOptionSelected tid aid uid uname)
        = handleSelectEvent tid aid uid uname s := rfl
    rw [harr]
    unfold handleSelectEvent
    split
    · left; rfl
    · rcases aid with _ | a
      · left; rfl
      · rcases uid with _ | u
        · left; rfl
        · right; right; exact ⟨a, u, uname, rfl⟩
  | teamAnswerFinalized fa =>
    left
    show (handleFinalizedEvent fa s).suggestions = s.suggestions
    rcases fa with _ | f <;> rfl
  | teamBattleQuestionResults ca tr lb =>
    left
    show (handleResultsEvent selfId ca tr lb s).suggestions = s.suggestions
    unfold handleResultsEvent
    rcases tr with _ | tf
    · rfl
    · rcases tf with rs | _ <;> rfl
  | teamBattleRoundComplete => left; rfl
  | teamBattleFinished fs yt => left; rfl
  | teamBattleEnded fs yt => left; rfl
  | teamsUpdated teams =>
    left
    show (handleTeamsEvent selfId teams s).suggestions = s.suggestions
    rcases teams with _ | ts <;> rfl
  | teamUpdate teams =>
    left
    show (handleTeamsEvent selfId teams s).suggestions = s.suggestions
    rcases teams with _ | ts <;> rfl
  | errorEvent msg => left; rfl
  | unknownType => left; rfl

lemma stepEvent_suggestions (selfId : Int) (s : LocalState) (e : InEvent) :
    (stepEvent selfId s e).suggestions = (handleMessage selfId s e).suggestions := by
  unfold stepEvent feedbackEffect
  split <;> rfl

lemma atMostOne_step {u : Int} (selfId : Int) (s : LocalState) (e : InEvent)
    (H : AtMostOneUser u s.suggestions) :
    AtMostOneUser u (stepEvent selfId s e).suggestions := by
  rw [stepEvent_suggestions]
  rcases handleMessage_suggestions selfId s e with h | h | ⟨a, u0, un, h⟩
  · rw [h]; exact H
  · rw [h]; exact atMostOne_nil u
  · rw [h]; exact atMostOne_afterSelect H

lemma atMostOne_foldl (selfId : Int) (u : Int) :
    ∀ (es : List InEvent) (s : LocalState), AtMostOneUser u s.suggestions →
      AtMostOneUser u (es.foldl (stepEvent selfId) s).suggestions := by
  intro es
  induction es with
  | nil => intro s H; exact H
  | cons e es ih => intro s H; exact ih _ (atMostOne_step selfId s e H)

/-- C1: after any sequence of inbound events processed from the initial
state, the suggestion map lists any fixed user id under at most one answer
id; each valid team_option_selected removes the prior suggestion of that
user from every answer before adding the new one. -/
theorem C1_at_most_one_suggestion (selfId : Int) (es : List InEvent) (u : Int)
    (k1 k2 : String)
    (h1 : containsUser u k1 (runEvents selfId es).suggestions = true)
    (h2 : containsUser u k2 (runEvents selfId es).suggestions = true) :
    k1 = k2 :=
  atMostOne_foldl selfId u es initLocalState (atMostOne_nil u) k1 k2 h1 h2

/-- Witness for C1 at a concrete two-event run: user 7 switches from answer
a1 to a2 and is listed only under a2. -/
theorem C1_witness :
    containsUser 7 "a2" (runEvents 1
      [InEvent.teamOptionSelected (some "t1") (some "a1") (some 7) (some "bob"),
       InEvent.teamOptionSelected (some "t1") (some "a2") (some 7) (some "bob")]).suggestions
        = true ∧
    ("a2" : String) = "a2" :=
  ⟨by decide, C1_at_most_one_suggestion 1
    [InEvent.teamOptionSelected (some "t1") (some "a1") (some 7) (some "bob"),
     InEvent.teamOptionSelected (some "t1") (some "a2") (some 7) (some "bob")]
    7 "a2" "a2" (by decide) (by decide)⟩

lemma feedbackEffect_of_eq {sOld sNew : LocalState}
    (h : sNew.lastRoundCorrect = sOld.lastRoundCorrect) :
    feedbackEffect sOld sNew = sNew := by
  unfold feedbackEffect
  simp [h]

lemma feedbackEffect_of_none {sOld sNew : LocalState}
    (h : sNew.lastRoundCorrect = none) :
    feedbackEffect sOld sNew = sNew := by
  unfold feedbackEffect
  simp [h]

lemma feedbackEffect_correctAnswerId (sOld sNew : LocalState) :
    (feedbackEffect sOld sNew).correctAnswerId = sNew.correctAnswerId := by
  unfold feedbackEffect
  split <;> rfl

/-- C5: a team_battle_question event always enters the question phase and
resets every piece of per-round local state, whatever the prior state was. -/
theorem C5_question_resets (selfId : Int) (s : LocalState) (q : Option Question)
    (qn tq tl : Option Int) :
    (stepEvent selfId s (.teamBattleQuestion q qn tq tl)).gameState.phase = Phase.question ∧
    (stepEvent selfId s (.teamBattleQuestion q qn tq tl)).selectedAnswer = none ∧
    (stepEvent selfId s (.teamBattleQuestion q qn tq tl)).hasSubmitted = false ∧
    (stepEvent selfId s (.teamBattleQuestion q qn tq tl)).teamAnswer = none ∧
    (stepEvent selfId s (.teamBattleQuestion q qn tq tl)).memberAnswers = [] ∧
    (stepEvent selfId s (.teamBattleQuestion q qn tq tl)).suggestions = [] ∧
    (stepEvent selfId s (.teamBattleQuestion q qn tq tl)).waitingForResults = false ∧
    (stepEvent selfId s (.teamBattleQuestion q qn tq tl)).correctAnswerId = none ∧
    (stepEvent selfId s (.teamBattleQuestion q qn tq tl)).lastRoundCorrect = none := by
  have h : stepEvent selfId s (.teamBattleQuestion q qn tq tl) = handleQuestionEvent q qn tq tl s :=
    feedbackEffect_of_none rfl
  rw [h]
  exact ⟨rfl, rfl, rfl, rfl, rfl, rfl, rfl, rfl, rfl⟩

/-- C7: a team_answer_finalized event carrying an answer id records it as
the team answer, marks the question submitted, and shows the waiting
overlay. -/
theorem C7_finalized_locks (selfId : Int) (s : LocalState) (aid : String) :
    (stepEvent selfId s (.teamAnswerFinalized (some { answerId := some aid }))).teamAnswer
        = some aid ∧
    (stepEvent selfId s (.teamAnswerFinalized (some { answerId := some aid }))).hasSubmitted
        = true ∧
    (stepEvent selfId s (.teamAnswerFinalized (some { answerId := some aid }))).waitingForResults
        = true := by
  have h : stepEvent selfId s (.teamAnswerFinalized (some { answerId := some aid }))
      = handleFinalizedEvent (some { answerId := some aid }) s :=
    feedbackEffect_of_eq rfl
  rw [h]
  exact ⟨rfl, rfl, rfl⟩

/-- C2 counterexample: a results event whose correctAnswer object carries the
present but empty id yields a null correctAnswerId, so the stored value is
not the server-supplied id even though the server did not omit it. -/
theorem C2_counterexample :
    (stepEvent 1 initLocalState
      (.teamBattleQuestionResults (some { id := some "" }) none none)).correctAnswerId = none ∧
    some "" ≠ (none : Option String) := by
  exact ⟨by decide, by decide⟩

/-- C2 amended: a results event stores the server-supplied id exactly when it
is present and non-empty, and stores null when the correctAnswer object or
its id is missing or the id is the empty string. -/
theorem C2_results_correct_id (selfId : Int) (s : LocalState)
    (ca : Option CorrectAnswerObj) (tr : Option TeamResultsField)
    (lb : Option (List LeaderboardEntry)) :
    (stepEvent selfId s (.teamBattleQuestionResults ca tr lb)).correctAnswerId
      = jsCorrectId ca := by
  have h1 : (handleResultsEvent selfId ca tr lb s).correctAnswerId = jsCorrectId ca := by
    unfold handleResultsEvent
    rcases tr with _ | tf
    · rfl
    · rcases tf with rs | _ <;> rfl
  calc (stepEvent selfId s (.teamBattleQuestionResults ca tr lb)).correctAnswerId
      = (handleResultsEvent selfId ca tr lb s).correctAnswerId :=
        feedbackEffect_correctAnswerId s (handleResultsEvent selfId ca tr lb s)
    _ = jsCorrectId ca := h1

/-- Reachable state after a results event arrives before any question was
loaded: the round is resolved and not dismissed, yet no question is
present. -/
def earlyResultsState : LocalState :=
  stepEvent 1 initLocalState (.teamBattleQuestionResults (some { id := some "a1" }) none none)

/-- C3 counterexample: in the reachable state produced by a results event
with no prior question, correctAnswerId and lastRoundCorrect are known and
the feedback was not dismissed, yet the overlay is not rendered, because the
render condition also requires a current question. -/
theorem C3_counterexample :
    showFeedbackModal earlyResultsState = false ∧
    earlyResultsState.correctAnswerId ≠ none ∧
    earlyResultsState.lastRoundCorrect ≠ none ∧
    earlyResultsState.showRoundFeedback = true := by
  exact ⟨by decide, by decide, by decide, by decide⟩

/-- C3 amended: the overlay is rendered iff the round is resolved, not yet
dismissed, and a current question is present; the dismissal action clears
showRoundFeedback, lastRoundCorrect and correctAnswerId in a single step and
changes nothing else. -/
theorem C3_overlay_characterization (s : LocalState) :
    (showFeedbackModal s = true ↔
      (s.showRoundFeedback = true ∧ s.gameState.currentQuestion ≠ none ∧
       s.correctAnswerId ≠ none ∧ s.lastRoundCorrect ≠ none)) ∧
    (dismissFeedback s).showRoundFeedback = false ∧
    (dismissFeedback s).lastRoundCorrect = none ∧
    (dismissFeedback s).correctAnswerId = none ∧
    (dismissFeedback s).gameState = s.gameState ∧
    (dismissFeedback s).selectedAnswer = s.selectedAnswer ∧
    (dismissFeedback s).hasSubmitted = s.hasSubmitted ∧
    (dismissFeedback s).teamAnswer = s.teamAnswer ∧
    (dismissFeedback s).memberAnswers = s.memberAnswers ∧
    (dismissFeedback s).connected = s.connected ∧
    (dismissFeedback s).suggestions = s.suggestions ∧
    (dismissFeedback s).waitingForResults = s.waitingForResults := by
  refine ⟨?_, rfl, rfl, rfl, rfl, rfl, rfl, rfl, rfl, rfl, rfl, rfl⟩
  unfold showFeedbackModal
  simp [Bool.and_eq_true, Option.isSome_iff_ne_none, and_assoc]

/-- Reachable state with a locked-in team answer, waiting for results. -/
def lockedState : LocalState :=
  stepEvent 1 initLocalState (.teamAnswerFinalized (some { answerId := some "a2" }))

/-- State after a results event whose teamResults field is a truthy
non-array value, so the handler throws after its first two updates. -/
def afterBadResultsState : LocalState :=
  stepEvent 1 lockedState (.teamBattleQuestionResults none (some .nonArrayTruthy) none)

/-- C4 counterexample: a results payload whose teamResults field is malformed
is caught, but the state is not left unchanged: the waiting overlay flag was
already cleared before the throwing access. -/
theorem C4_counterexample :
    lockedState.waitingForResults = true ∧
    afterBadResultsState.waitingForResults = false ∧
    afterBadResultsState ≠ lockedState := by
  exact ⟨by decide, by decide, by decide⟩

/-- C4 amended: malformed messages are caught and do not crash the view; an
unparsable JSON payload leaves all state unchanged, but a payload whose field
access throws partway through a handler keeps the updates issued before the
throwing access, as with a results event carrying a non-array teamResults
field. -/
theorem C4_malformed_caught (selfId : Int) (s : LocalState)
    (ca : Option CorrectAnswerObj) (lb : Option (List LeaderboardEntry)) :
    stepEvent selfId s .malformedJson = s ∧
    stepEvent selfId s (.teamBattleQuestionResults ca (some .nonArrayTruthy) lb) =
      { s with waitingForResults := false, correctAnswerId := jsCorrectId ca } := by
  constructor
  · exact feedbackEffect_of_eq rfl
  · show feedbackEffect s (handleResultsEvent selfId ca (some .nonArrayTruthy) lb s) = _
    have hr : handleResultsEvent selfId ca (some .nonArrayTruthy) lb s =
        { s with waitingForResults := false, correctAnswerId := jsCorrectId ca } := rfl
    rw [hr]
    exact feedbackEffect_of_eq rfl

/-- Roster with the current user 1 as captain, team id x. -/
def rosterTeamA : Team :=
  { id := "x", name := "Alpha", captainId := 1, gameSessionId := "g",
    members := [{ userId := 1, username := "bob", role := "captain" }],
    score := 0, correctAnswers := 0, incorrectAnswers := 0, status := "forming" }

/-- Roster that duplicates the id of rosterTeamA with no members. -/
def rosterTeamB : Team :=
  { id := "x", name := "Beta", captainId := 2, gameSessionId := "g",
    members := [], score := 0, correctAnswers := 0, incorrectAnswers := 0,
    status := "forming" }

/-- Roster with a distinct id y and no members. -/
def rosterTeamC : Team :=
  { id := "y", name := "Gamma", captainId := 2, gameSessionId := "g",
    members := [], score := 0, correctAnswers := 0, incorrectAnswers := 0,
    status := "forming" }

/-- C6 counterexample: a teams_updated event with two teams, one of which
contains the current user, but which share an id: the player team is
resolved, yet no opposing team is assigned because no team has a different
id. -/
theorem C6_counterexample :
    2 ≤ ([rosterTeamA, rosterTeamB] : List Team).length ∧
    rosterTeamA.members.any (fun m => m.userId == 1) = true ∧
    (stepEvent 1 initLocalState
      (.teamsUpdated (some [rosterTeamA, rosterTeamB]))).gameState.playerTeam
        = some rosterTeamA ∧
    (stepEvent 1 initLocalState
      (.teamsUpdated (some [rosterTeamA, rosterTeamB]))).gameState.opposingTeam
        = none := by
  exact ⟨by decide, by decide, by decide, by decide⟩

/-- C6 amended: a teams_updated event assigns the first team containing the
current user as the player team and, provided some team has an id different
from that of the player team, assigns an opposing team whose id differs; if
every team shares the player team id, the opposing team is left unset. -/
theorem C6_team_resolution (selfId : Int) (s : LocalState) (teams : List Team) (pt : Team)
    (hfind : teams.find? (fun t => t.members.any (fun m => m.userId == selfId)) = some pt)
    (hdiff : teams.any (fun t => t.id != pt.id) = true) :
    (stepEvent selfId s (.teamsUpdated (some teams))).gameState.playerTeam = some pt ∧
    pt.members.any (fun m => m.userId == selfId) = true ∧
    ∃ ot, (stepEvent selfId s (.teamsUpdated (some teams))).gameState.opposingTeam = some ot ∧
      ot.id ≠ pt.id := by
  have hstep : stepEvent selfId s (.teamsUpdated (some teams)) = updateTeamsData selfId teams s :=
    feedbackEffect_of_eq rfl
  rw [hstep]
  have hplayer : (updateTeamsData selfId teams s).gameState.playerTeam =
      teams.find? (fun t => t.members.any (fun m => m.userId == selfId)) := rfl
  have hoppeq : (updateTeamsData selfId teams s).gameState.opposingTeam =
      teams.find? (fun t =>
        match teams.find? (fun t2 => t2.members.any (fun m => m.userId == selfId)) with
        | some ptv => t.id != ptv.id
        | none => true) := rfl
  refine ⟨?_, ?_, ?_⟩
  · rw [hplayer, hfind]
  · have h2 := @List.find?_some Team
      (fun t => t.members.any (fun m => m.userId == selfId)) pt teams hfind
    exact h2
  · rw [hoppeq]
    simp only [hfind]
    rcases List.any_eq_true.mp hdiff with ⟨t, ht, htb⟩
    have hsome : (teams.find? (fun t => t.id != pt.id)).isSome := by
      rw [List.find?_isSome]
      exact ⟨t, ht, htb⟩
    obtain ⟨ot, hot⟩ := Option.isSome_iff_exists.mp hsome
    exact ⟨ot, hot, by simpa using List.find?_some hot⟩

/-- Witness for C6 at a concrete pair of teams with distinct ids. -/
theorem C6_witness :
    [rosterTeamA, rosterTeamC].find? (fun t => t.members.any (fun m => m.userId == 1))
        = some rosterTeamA ∧
    ([rosterTeamA, rosterTeamC].any (fun t => t.id != rosterTeamA.id)) = true ∧
    ((stepEvent 1 initLocalState
        (.teamsUpdated (some [rosterTeamA, rosterTeamC]))).gameState.playerTeam
          = some rosterTeamA ∧
     rosterTeamA.members.any (fun m => m.userId == 1) = true ∧
     ∃ ot, (stepEvent 1 initLocalState
        (.teamsUpdated (some [rosterTeamA, rosterTeamC]))).gameState.opposingTeam
          = some ot ∧ ot.id ≠ rosterTeamA.id) :=
  ⟨by decide, by decide,
   C6_team_resolution 1 initLocalState [rosterTeamA, rosterTeamC] rosterTeamA
     (by decide) (by decide)⟩

/-- C8: the captain submit handler never changes local state, and it emits
the finalize_team_answer event exactly when a current question and a player
team exist and the player team captain id equals the current user id. -/
theorem C8_captain_only (selfId : Int) (s : LocalState) (aid : String) :
    (handleCaptainSubmit selfId s aid).1 = s ∧
    ((handleCaptainSubmit selfId s aid).2.isSome = true ↔
      (s.gameState.currentQuestion ≠ none ∧
       ∃ t, s.gameState.playerTeam = some t ∧ t.captainId = selfId)) := by
  unfold handleCaptainSubmit isTeamCaptain
  rcases hq : s.gameState.currentQuestion with _ | q
  · rcases hp : s.gameState.playerTeam with _ | t <;> simp [hq, hp]
  · rcases hp : s.gameState.playerTeam with _ | t
    · simp [hq, hp]
    · by_cases hc : t.captainId = selfId <;> simp [hq, hp, hc]

/-- C9: the ready action of TeamDisplay is rendered only when the viewer id
matches the captain id of the displayed team and the team is the viewer own
team; and omitting the optional title changes the rendering only by dropping
the title line. -/
theorem C9_ready_button (p : TeamDisplayProps) :
    ((renderTeamDisplay p).showsReadyButton = true →
      ∃ n, p.currentUserId = some n ∧ p.team.captainId = n ∧ p.isUserTeam = true) ∧
    renderTeamDisplay { p with title := none } =
      { renderTeamDisplay p with showsTitle := false } := by
  constructor
  · intro h
    rcases hc : p.currentUserId with _ | n
    · simp [renderTeamDisplay, hc] at h
    · by_cases hz : (n == 0) = true
      · simp [renderTeamDisplay, hc, hz] at h
      · simp [renderTeamDisplay, hc, hz, Bool.and_eq_true] at h
        exact ⟨n, rfl, h.2, h.1.2⟩
  · simp [renderTeamDisplay]

/-- Props where the viewer is the captain of the displayed own team. -/
def captainProps : TeamDisplayProps :=
  { team := { id := "x", name := "Alpha", captainId := 5,
              members := [{ userId := 5, username := "bob", role := "captain" }],
              teamSide := none },
    currentUserId := some 5, onReady := true, title := some "YOUR TEAM",
    isUserTeam := true, isReady := false }

/-- Witness for C9 at props where the viewer is the captain of the own team
and the button is rendered. -/
theorem C9_witness :
    ((renderTeamDisplay captainProps).showsReadyButton = true →
      ∃ n, captainProps.currentUserId = some n ∧ captainProps.team.captainId = n ∧
        captainProps.isUserTeam = true) ∧
    renderTeamDisplay { captainProps with title := none } =
      { renderTeamDisplay captainProps with showsTitle := false } :=
  C9_ready_button captainProps

/-- C10: a team_option_selected event whose teamId, answerId or userId is
missing or falsy (zero id, empty string) is dropped by the guard and leaves
the whole local state, in particular the suggestion map, unchanged. -/
theorem C10_falsy_select_ignored (selfId : Int) (s : LocalState)
    (tid aid : Option String) (uid : Option Int) (uname : Option String)
    (h : (isFalsyStr tid || isFalsyStr aid || isFalsyInt uid) = true) :
    stepEvent selfId s (.teamOptionSelected tid aid uid uname) = s := by
  have hm : handleMessage selfId s (.teamOptionSelected tid aid uid uname) = s := by
    show handleSelectEvent tid aid uid uname s = s
    unfold handleSelectEvent
    rw [if_pos h]
  show feedbackEffect s (handleMessage selfId s (.teamOptionSelected tid aid uid uname)) = s
  rw [hm]
  exact feedbackEffect_of_eq rfl

/-- Witness for C10 at a zero user id. -/
theorem C10_witness :
    (isFalsyStr (some "t1") || isFalsyStr (some "a1") || isFalsyInt (some 0)) = true ∧
    stepEvent 1 initLocalState
      (.teamOptionSelected (some "t1") (some "a1") (some 0) (some "bob")) = initLocalState :=
  ⟨by decide,
   C10_falsy_select_ignored 1 initLocalState (some "t1") (some "a1") (some 0) (some "bob")
     (by decide)⟩
